import Mathlib

/-!
Verification of the content-addressing core of an IPFS storage facade:
the base58 identifier codec, the SHA-256 based CIDv0 construction, the
in-memory storage adapter, and the RPC translation layer.
-/

/-- Alphabet used by the base58 encoder (the Bitcoin/IPFS alphabet). -/
def base58Alphabet : List Char :=
  "123456789ABCDEFGHJKLMNPQRSTUVWXYZabcdefghijkmnopqrstuvwxyz".toList

/-- Character for one base58 digit. -/
def base58Char (r : Nat) : Char := base58Alphabet.getD r ' '

/-- Big-endian base-256 value of a byte list. -/
def beBytesToNat (l : List Nat) : Nat := l.foldl (fun acc b => acc * 256 + b) 0

/-- Number of leading zero bytes, as counted by the first loop of encodeBase58. -/
def countLeadingZeros : List Nat → Nat
  | [] => 0
  | b :: rest => if b == 0 then countLeadingZeros rest + 1 else 0

/-- One step of the inner division loop of encodeBase58: byte-wise long division
of the base-256 digit string by 58, skipping leading zero digits of the
quotient, threading the running remainder. -/
def divStep (st : List Nat × Nat) (b : Nat) : List Nat × Nat :=
  if st.1.isEmpty && (st.2 * 256 + b) / 58 == 0 then
    (st.1, (st.2 * 256 + b) % 58)
  else
    (st.1 ++ [(st.2 * 256 + b) / 58], (st.2 * 256 + b) % 58)

/-- Inner loop of encodeBase58: divide the base-256 digit string by 58,
returning the quotient digit string (leading zeros stripped) and the
remainder. -/
def divmod58 (data : List Nat) : List Nat × Nat := data.foldl divStep ([], 0)

theorem beBytesToNat_foldl (l : List Nat) : ∀ a : Nat,
    l.foldl (fun acc b => acc * 256 + b) a = a * 256 ^ l.length + beBytesToNat l := by
  induction l with
  | nil => intro a; simp [beBytesToNat]
  | cons b l ih =>
    intro a
    show l.foldl _ (a * 256 + b) = a * 256 ^ (b :: l).length + beBytesToNat (b :: l)
    have hbl : beBytesToNat (b :: l) = b * 256 ^ l.length + beBytesToNat l := by
      show l.foldl _ (0 * 256 + b) = _
      rw [ih (0 * 256 + b)]
      ring_nf
    rw [ih (a * 256 + b), hbl, List.length_cons]
    ring

theorem beBytesToNat_cons (b : Nat) (l : List Nat) :
    beBytesToNat (b :: l) = b * 256 ^ l.length + beBytesToNat l := by
  show l.foldl _ (0 * 256 + b) = _
  rw [beBytesToNat_foldl]
  ring_nf

theorem beBytesToNat_append_digit (l : List Nat) (d : Nat) :
    beBytesToNat (l ++ [d]) = beBytesToNat l * 256 + d := by
  unfold beBytesToNat
  rw [List.foldl_append]
  rfl

theorem beBytesToNat_dropWhile (l : List Nat) :
    beBytesToNat (l.dropWhile (fun b => b == 0)) = beBytesToNat l := by
  induction l with
  | nil => rfl
  | cons b l ih =>
    by_cases hb : b = 0
    · subst hb
      rw [List.dropWhile_cons]
      simpa [beBytesToNat_cons] using ih
    · rw [List.dropWhile_cons]
      simp [hb]

theorem dropWhile_zero_head (l : List Nat) (d : Nat) (rest : List Nat)
    (h : l.dropWhile (fun b => b == 0) = d :: rest) : d ≠ 0 := by
  induction l with
  | nil => simp at h
  | cons b l ih =>
    rw [List.dropWhile_cons] at h
    by_cases hb : b = 0
    · exact ih (by simpa [hb] using h)
    · simp [hb] at h
      intro hd
      exact hb (h.1 ▸ hd)

theorem beBytesToNat_head_pos (d : Nat) (rest : List Nat) (hd : d ≠ 0) :
    0 < beBytesToNat (d :: rest) := by
  rw [beBytesToNat_cons]
  have h1 : 0 < 256 ^ rest.length := Nat.pos_pow_of_pos _ (by omega)
  have : 0 < d := Nat.pos_of_ne_zero hd
  positivity

theorem divStep_val (q : List Nat) (r b : Nat) :
    beBytesToNat (divStep (q, r) b).1 * 58 + (divStep (q, r) b).2
      = (beBytesToNat q * 58 + r) * 256 + b := by
  have hx := Nat.div_add_mod (r * 256 + b) 58
  unfold divStep
  split
  · next h =>
    simp only [Bool.and_eq_true, beq_iff_eq, List.isEmpty_iff] at h
    obtain ⟨hq, hdiv⟩ := h
    rw [hq]
    simp only [beBytesToNat]
    simp only [List.foldl_nil]
    omega
  · rw [beBytesToNat_append_digit]
    ring_nf
    ring_nf at hx
    omega

theorem divStep_snd_lt (q : List Nat) (r b : Nat) : (divStep (q, r) b).2 < 58 := by
  unfold divStep
  split <;> exact Nat.mod_lt _ (by omega)

theorem divmod58_loop (l : List Nat) : ∀ (q : List Nat) (r : Nat), r < 58 →
    beBytesToNat (l.foldl divStep (q, r)).1 * 58 + (l.foldl divStep (q, r)).2
        = (beBytesToNat q * 58 + r) * 256 ^ l.length + beBytesToNat l
      ∧ (l.foldl divStep (q, r)).2 < 58 := by
  induction l with
  | nil =>
    intro q r hr
    simp [beBytesToNat, hr]
  | cons b l ih =>
    intro q r hr
    have hstep : l.foldl divStep (divStep (q, r) b)
        = (b :: l).foldl divStep (q, r) := by
      simp [List.foldl_cons]
    have h1 := divStep_val q r b
    have h2 := divStep_snd_lt q r b
    obtain ⟨hv, hlt⟩ := ih (divStep (q, r) b).1 (divStep (q, r) b).2 h2
    rw [hstep] at hv hlt
    refine ⟨?_, hlt⟩
    rw [hv, h1, beBytesToNat_cons, List.length_cons]
    ring

theorem divmod58_spec (data : List Nat) :
    beBytesToNat (divmod58 data).1 * 58 + (divmod58 data).2 = beBytesToNat data
      ∧ (divmod58 data).2 < 58 := by
  have h := divmod58_loop data [] 0 (by omega)
  unfold divmod58
  simpa [beBytesToNat] using h

theorem divmod58_fst_lt (data : List Nat) (h : beBytesToNat data ≠ 0) :
    beBytesToNat (divmod58 data).1 < beBytesToNat data := by
  obtain ⟨hv, hr⟩ := divmod58_spec data
  omega

/-- Main loop of encodeBase58, taken from the source: strip leading zero bytes
from the working digit string; if nothing remains, stop; otherwise divide by 58
and prepend the alphabet character of the remainder to the result. -/
def encodeLoop (data : List Nat) : List Char :=
  if h : (data.dropWhile (fun b => b == 0)).isEmpty then []
  else
    encodeLoop (divmod58 (data.dropWhile (fun b => b == 0))).1 ++
      [base58Char (divmod58 (data.dropWhile (fun b => b == 0))).2]
termination_by beBytesToNat data
decreasing_by
  obtain ⟨d, rest, hdr⟩ :=
    List.exists_cons_of_ne_nil (fun hnil => h (List.isEmpty_iff.mpr hnil))
  have hd : d ≠ 0 := dropWhile_zero_head data d rest hdr
  have hpos : 0 < beBytesToNat (data.dropWhile (fun b => b == 0)) := by
    rw [hdr]; exact beBytesToNat_head_pos d rest hd
  have hlt := divmod58_fst_lt (data.dropWhile (fun b => b == 0)) (by omega)
  calc beBytesToNat (divmod58 (data.dropWhile (fun b => b == 0))).1
      < beBytesToNat (data.dropWhile (fun b => b == 0)) := hlt
    _ = beBytesToNat data := beBytesToNat_dropWhile data

/-- Base58 encoder as written in the source: count leading zero bytes, run the
division loop, then prepend one alphabet zero-symbol per leading zero byte. -/
def encodeBase58 (input : List Nat) : String :=
  String.mk (List.replicate (countLeadingZeros input) '1' ++ encodeLoop input)

/-- Specification-side encoder for the division phase, following the words of
the spec: treat the input as an arbitrary-precision unsigned integer and
repeatedly divide by 58, prepending the alphabet character for each remainder,
until the value is zero. -/
def specNatToBase58 (n : Nat) : List Char :=
  if h : n = 0 then []
  else specNatToBase58 (n / 58) ++ [base58Char (n % 58)]
termination_by n
decreasing_by exact Nat.div_lt_self (Nat.pos_of_ne_zero h) (by omega)

theorem specNatToBase58_pos (n : Nat) (h : n ≠ 0) :
    specNatToBase58 n = specNatToBase58 (n / 58) ++ [base58Char (n % 58)] := by
  rw [specNatToBase58]
  rw [dif_neg h]

theorem encodeLoop_eq_aux : ∀ (n : Nat) (data : List Nat), beBytesToNat data = n →
    encodeLoop data = specNatToBase58 n := by
  intro n
  induction n using Nat.strong_induction_on with
  | _ n ih =>
    intro data hn
    rw [encodeLoop]
    by_cases he : (data.dropWhile (fun b => b == 0)).isEmpty
    · rw [dif_pos he]
      have h0 : beBytesToNat data = 0 := by
        rw [← beBytesToNat_dropWhile data]
        rw [List.isEmpty_iff] at he
        rw [he]
        rfl
      rw [← hn, h0, specNatToBase58]
      simp
    · rw [dif_neg he]
      obtain ⟨d, rest, hdr⟩ :=
        List.exists_cons_of_ne_nil (fun hnil => he (List.isEmpty_iff.mpr hnil))
      have hd : d ≠ 0 := dropWhile_zero_head data d rest hdr
      have hpos : 0 < beBytesToNat (data.dropWhile (fun b => b == 0)) := by
        rw [hdr]; exact beBytesToNat_head_pos d rest hd
      have hval : beBytesToNat (data.dropWhile (fun b => b == 0)) = n := by
        rw [beBytesToNat_dropWhile data, hn]
      obtain ⟨hv, hr⟩ := divmod58_spec (data.dropWhile (fun b => b == 0))
      rw [hval] at hv
      have hq : beBytesToNat (divmod58 (data.dropWhile (fun b => b == 0))).1 = n / 58 := by
        omega
      have hrem : (divmod58 (data.dropWhile (fun b => b == 0))).2 = n % 58 := by
        omega
      have hlt : n / 58 < n := Nat.div_lt_self (by omega) (by omega)
      rw [ih (n / 58) hlt _ hq, hrem]
      exact (specNatToBase58_pos n (by omega)).symm

theorem encodeLoop_eq (data : List Nat) :
    encodeLoop data = specNatToBase58 (beBytesToNat data) :=
  encodeLoop_eq_aux (beBytesToNat data) data rfl

/-!
SHA-256 over byte lists, the hash used by the upload path of the in-memory
adapter to derive CIDv0 identifiers. Words are Nat values reduced modulo 2^32.
-/

/-- Reduction of a value to a 32-bit word. -/
def w32 (n : Nat) : Nat := n % 4294967296

/-- Right rotation of a 32-bit word. -/
def rotr32 (x n : Nat) : Nat := w32 ((x >>> n) ||| (x <<< (32 - n)))

/-- Big sigma 0 function of SHA-256. -/
def bigSigma0 (x : Nat) : Nat := rotr32 x 2 ^^^ rotr32 x 13 ^^^ rotr32 x 22

/-- Big sigma 1 function of SHA-256. -/
def bigSigma1 (x : Nat) : Nat := rotr32 x 6 ^^^ rotr32 x 11 ^^^ rotr32 x 25

/-- Small sigma 0 function of SHA-256. -/
def smallSigma0 (x : Nat) : Nat := rotr32 x 7 ^^^ rotr32 x 18 ^^^ (x >>> 3)

/-- Small sigma 1 function of SHA-256. -/
def smallSigma1 (x : Nat) : Nat := rotr32 x 17 ^^^ rotr32 x 19 ^^^ (x >>> 10)

/-- Choice function of SHA-256. -/
def chF (x y z : Nat) : Nat := (x &&& y) ^^^ ((4294967295 ^^^ x) &&& z)

/-- Majority function of SHA-256. -/
def majF (x y z : Nat) : Nat := (x &&& y) ^^^ (x &&& z) ^^^ (y &&& z)

/-- Round constants of SHA-256, written in decimal. -/
def sha256K : List Nat :=
  [1116352408, 1899447441, 3049323471, 3921009573, 961987163, 1508970993,
   2453635748, 2870763221, 3624381080, 310598401, 607225278, 1426881987,
   1925078388, 2162078206, 2614888103, 3248222580, 3835390401, 4022224774,
   264347078, 604807628, 770255983, 1249150122, 1555081692, 1996064986,
   2554220882, 2821834349, 2952996808, 3210313671, 3336571891, 3584528711,
   113926993, 338241895, 666307205, 773529912, 1294757372, 1396182291,
   1695183700, 1986661051, 2177026350, 2456956037, 2730485921, 2820302411,
   3259730800, 3345764771, 3516065817, 3600352804, 4094571909, 275423344,
   430227734, 506948616, 659060556, 883997877, 958139571, 1322822218,
   1537002063, 1747873779, 1955562222, 2024104815, 2227730452, 2361852424,
   2428436474, 2756734187, 3204031479, 3329325298]

/-- Working registers of the SHA-256 compression loop. -/
structure Sha256Regs where
  ra : Nat
  rb : Nat
  rc : Nat
  rd : Nat
  re : Nat
  rf : Nat
  rg : Nat
  rh : Nat

/-- Chaining hash state of SHA-256, eight 32-bit words. -/
structure Sha256Hash where
  s0 : Nat
  s1 : Nat
  s2 : Nat
  s3 : Nat
  s4 : Nat
  s5 : Nat
  s6 : Nat
  s7 : Nat

/-- Initial hash value of SHA-256, written in decimal. -/
def sha256Start : Sha256Hash :=
  ⟨1779033703, 3144134277, 1013904242, 2773480762,
   1359893119, 2600822924, 528734635, 1541459225⟩

/-- Group a block of bytes into big-endian 32-bit words. -/
def sha256Words : List Nat → List Nat
  | b0 :: b1 :: b2 :: b3 :: rest =>
      (((b0 * 256 + b1) * 256 + b2) * 256 + b3) :: sha256Words rest
  | _ => []

/-- Extension of the sixteen message words of a block to sixty-four schedule
words. -/
def sha256Schedule (w : List Nat) : List Nat :=
  if h : 64 ≤ w.length then w
  else
    sha256Schedule (w ++
      [w32 (w.getD (w.length - 16) 0 + smallSigma0 (w.getD (w.length - 15) 0) +
            w.getD (w.length - 7) 0 + smallSigma1 (w.getD (w.length - 2) 0))])
termination_by 64 - w.length
decreasing_by
  simp only [List.length_append, List.length_cons, List.length_nil]
  omega

/-- One round of the SHA-256 compression function; the pair carries the
schedule word and the round constant. -/
def sha256Round (r : Sha256Regs) (wk : Nat × Nat) : Sha256Regs :=
  let t1 := w32 (r.rh + bigSigma1 r.re + chF r.re r.rf r.rg + wk.2 + wk.1)
  let t2 := w32 (bigSigma0 r.ra + majF r.ra r.rb r.rc)
  ⟨w32 (t1 + t2), r.ra, r.rb, r.rc, w32 (r.rd + t1), r.re, r.rf, r.rg⟩

/-- Compression of one 64-byte block into the chaining state. -/
def sha256Compress (hs : Sha256Hash) (block : List Nat) : Sha256Hash :=
  let ws := sha256Schedule (sha256Words block)
  let r := (ws.zip sha256K).foldl sha256Round
    ⟨hs.s0, hs.s1, hs.s2, hs.s3, hs.s4, hs.s5, hs.s6, hs.s7⟩
  ⟨w32 (hs.s0 + r.ra), w32 (hs.s1 + r.rb), w32 (hs.s2 + r.rc), w32 (hs.s3 + r.rd),
   w32 (hs.s4 + r.re), w32 (hs.s5 + r.rf), w32 (hs.s6 + r.rg), w32 (hs.s7 + r.rh)⟩

/-- Big-endian eight-byte encoding of the message bit length. -/
def sha256LenBytes (n : Nat) : List Nat :=
  [n / 2 ^ 56 % 256, n / 2 ^ 48 % 256, n / 2 ^ 40 % 256, n / 2 ^ 32 % 256,
   n / 2 ^ 24 % 256, n / 2 ^ 16 % 256, n / 2 ^ 8 % 256, n % 256]

/-- Padding of a message: append the 0x80 marker, zero bytes up to 56 modulo
64, then the bit length as a big-endian 64-bit value. -/
def sha256Pad (msg : List Nat) : List Nat :=
  let r := (msg.length + 1) % 64
  msg ++ [128] ++ List.replicate (if r ≤ 56 then 56 - r else 120 - r) 0 ++
    sha256LenBytes (msg.length * 8 % 2 ^ 64)

/-- Split a byte list into chunks of sixty-four bytes. -/
def chunk64 (l : List Nat) : List (List Nat) :=
  if h : l = [] then []
  else l.take 64 :: chunk64 (l.drop 64)
termination_by l.length
decreasing_by
  simp only [List.length_drop]
  have hl : 0 < l.length := List.length_pos.mpr h
  omega

/-- Big-endian bytes of one 32-bit word. -/
def wordBytes (w : Nat) : List Nat :=
  [w >>> 24 % 256, w >>> 16 % 256, w >>> 8 % 256, w % 256]

/-- SHA-256 digest of a byte list, as 32 bytes. -/
def sha256 (msg : List Nat) : List Nat :=
  let hs := (chunk64 (sha256Pad msg)).foldl sha256Compress sha256Start
  wordBytes hs.s0 ++ wordBytes hs.s1 ++ wordBytes hs.s2 ++ wordBytes hs.s3 ++
  wordBytes hs.s4 ++ wordBytes hs.s5 ++ wordBytes hs.s6 ++ wordBytes hs.s7

theorem sha256_length (msg : List Nat) : (sha256 msg).length = 32 := rfl

/-!
In-memory adapter (the mock IPFS client) and the polymorphic storage client
contract. Go maps are modelled as functions to Option values; the pin map
distinguishes an absent key from a key stored with the value false, matching
delete versus assignment on the Go map.
-/

/-- Result of an upload, as returned by a storage client. -/
structure AddResponse where
  name : String
  ipfsHash : String
  size : String
deriving DecidableEq

/-- State of the in-memory mock IPFS client. -/
@[ext] structure MockClient where
  storage : String → Option (List Nat)
  pins : String → Option Bool
  gatewayURL : String

/-- Constructor of the mock client, defaulting the gateway base when empty. -/
def NewMockClient (gatewayURL : String) : MockClient :=
  { storage := fun _ => none
    pins := fun _ => none
    gatewayURL := if gatewayURL = "" then "https://ipfs.io/ipfs" else gatewayURL }

/-- Upload of the mock client: build the multihash 0x12, 0x20 followed by the
SHA-256 digest, base58-encode it to the CIDv0 identifier, store the bytes
under that identifier, and return the identifier with the decimal size. -/
def MockClient.Upload (c : MockClient) (data : List Nat) (filename : String) :
    Except String AddResponse × MockClient :=
  let cid := encodeBase58 (0x12 :: 0x20 :: sha256 data)
  (Except.ok { name := filename, ipfsHash := cid, size := toString data.length },
   { c with storage := fun k => if k = cid then some data else c.storage k })

/-- Retrieval of the mock client: look the identifier up in storage and fail
with a not-found message when absent. -/
def MockClient.Get (c : MockClient) (cid : String) :
    Except String (List Nat) × MockClient :=
  match c.storage cid with
  | some data => (Except.ok data, c)
  | none =>
      (Except.error ("content not found: " ++ cid ++ " (mock storage was likely reset)"), c)

/-- Pin of the mock client: set membership in the pin map, never failing. -/
def MockClient.Pin (c : MockClient) (cid : String) : Except String Unit × MockClient :=
  (Except.ok (), { c with pins := fun k => if k = cid then some true else c.pins k })

/-- Unpin of the mock client: delete the key from the pin map, never failing. -/
def MockClient.Unpin (c : MockClient) (cid : String) : Except String Unit × MockClient :=
  (Except.ok (), { c with pins := fun k => if k = cid then none else c.pins k })

/-- Gateway URL of the mock client: gateway base, a slash, the identifier. -/
def MockClient.GetGatewayURL (c : MockClient) (cid : String) : String :=
  c.gatewayURL ++ "/" ++ cid

/-- Pin query of the mock client: a missing key reads as false. -/
def MockClient.IsPinned (c : MockClient) (cid : String) : Bool :=
  (c.pins cid).getD false

/-- Storage client contract over an abstract adapter state: the five
operations any backing store must provide. -/
structure IPFSClient (σ : Type) where
  upload : σ → List Nat → String → Except String AddResponse × σ
  get : σ → String → Except String (List Nat) × σ
  pin : σ → String → Except String Unit × σ
  unpin : σ → String → Except String Unit × σ
  getGatewayURL : σ → String → String

/-- Conformance of the mock client to the storage client contract. -/
def mockIPFSClient : IPFSClient MockClient :=
  ⟨MockClient.Upload, MockClient.Get, MockClient.Pin, MockClient.Unpin,
   MockClient.GetGatewayURL⟩

/-!
RPC translation layer. Status codes are reduced to the three classifications
the handlers emit; responses mirror the wire messages field by field.
-/

/-- Failure classifications emitted by the RPC handlers. -/
inductive Code where
  | invalidArgument
  | internal
  | notFound
deriving DecidableEq

/-- Splitting of an optional leading sign, as done by the integer parser. -/
def splitSign (cs : List Char) : Bool × List Char :=
  match cs with
  | '+' :: rest => (false, rest)
  | '-' :: rest => (true, rest)
  | _ => (false, cs)

/-- Test used by the handlers for a string that parses as a signed decimal
integer: an optional sign followed by at least one decimal digit. -/
def isDecimalIntString (s : String) : Bool :=
  !(splitSign s.toList).2.isEmpty && (splitSign s.toList).2.all (fun c => c.isDigit)

/-- Decimal 64-bit integer parser with the error discarded, as the handlers
use it: a syntax error yields 0, and a value out of the signed 64-bit range
yields the clamped bound of the matching sign. -/
def parseInt64 (s : String) : Int :=
  let p := splitSign s.toList
  if p.2.isEmpty || !p.2.all (fun c => c.isDigit) then 0
  else
    let n : Nat := p.2.foldl (fun acc c => acc * 10 + (c.toNat - 48)) 0
    if p.1 then
      if 9223372036854775808 < n then -9223372036854775808 else -(n : Int)
    else
      if 9223372036854775807 < n then 9223372036854775807 else (n : Int)

theorem parseInt64_eq_zero (s : String) (h : isDecimalIntString s = false) :
    parseInt64 s = 0 := by
  unfold isDecimalIntString at h
  simp only [parseInt64]
  cases hq : (splitSign s.toList).2.isEmpty with
  | true => simp [hq]
  | false =>
    cases ha : (splitSign s.toList).2.all (fun c => c.isDigit) with
    | true => rw [hq, ha] at h; simp at h
    | false => simp [hq, ha]

/-- Request of UploadContent: payload bytes and an optional filename. -/
structure UploadContentRequest where
  data : List Nat
  filename : String
deriving DecidableEq

/-- Response of UploadContent. -/
structure UploadContentResponse where
  cid : String
  sizeBytes : Int
deriving DecidableEq

/-- Request of UploadProto: serialized payload and an optional type tag. -/
structure UploadProtoRequest where
  protoData : List Nat
  protoType : String
deriving DecidableEq

/-- Response of UploadProto. -/
structure UploadProtoResponse where
  cid : String
  sizeBytes : Int
deriving DecidableEq

/-- Request of GetContent. -/
structure GetContentRequest where
  cid : String
deriving DecidableEq

/-- Response of GetContent. -/
structure GetContentResponse where
  data : List Nat
  sizeBytes : Int
deriving DecidableEq

/-- Request of GetProto. -/
structure GetProtoRequest where
  cid : String
deriving DecidableEq

/-- Response of GetProto. -/
structure GetProtoResponse where
  protoData : List Nat
deriving DecidableEq

/-- Request of PinContent. -/
structure PinContentRequest where
  cid : String
deriving DecidableEq

/-- Response of PinContent. -/
structure PinContentResponse where
  success : Bool
deriving DecidableEq

/-- Request of UnpinContent. -/
structure UnpinContentRequest where
  cid : String
deriving DecidableEq

/-- Response of UnpinContent. -/
structure UnpinContentResponse where
  success : Bool
deriving DecidableEq

/-- Request of GetGatewayURL. -/
structure GetGatewayURLRequest where
  cid : String
deriving DecidableEq

/-- Response of GetGatewayURL. -/
structure GetGatewayURLResponse where
  url : String
deriving DecidableEq

/-- RPC server over an injected storage client. Handlers thread the abstract
adapter state explicitly; a handler returns either a response or a failure
classification, together with the adapter state after the call. -/
structure GRPCServer (σ : Type) where
  client : IPFSClient σ

/-- Handler of UploadContent: reject an empty payload, default the filename to
content, delegate to the client, map an upload failure to the internal
classification, and parse the reported size leniently. -/
def GRPCServer.UploadContent {σ : Type} (s : GRPCServer σ) (st : σ)
    (req : UploadContentRequest) : Except Code UploadContentResponse × σ :=
  if req.data = [] then (Except.error Code.invalidArgument, st)
  else
    match s.client.upload st req.data
        (if req.filename = "" then "content" else req.filename) with
    | (Except.error _, st2) => (Except.error Code.internal, st2)
    | (Except.ok r, st2) => (Except.ok ⟨r.ipfsHash, parseInt64 r.size⟩, st2)

/-- Handler of UploadProto: reject an empty payload, derive the filename from
the type tag with a fixed fallback, and otherwise behave as UploadContent. -/
def GRPCServer.UploadProto {σ : Type} (s : GRPCServer σ) (st : σ)
    (req : UploadProtoRequest) : Except Code UploadProtoResponse × σ :=
  if req.protoData = [] then (Except.error Code.invalidArgument, st)
  else
    match s.client.upload st req.protoData
        (if req.protoType = "" then "data.pb" else req.protoType ++ ".pb") with
    | (Except.error _, st2) => (Except.error Code.internal, st2)
    | (Except.ok r, st2) => (Except.ok ⟨r.ipfsHash, parseInt64 r.size⟩, st2)

/-- Handler of GetContent: reject an empty identifier, map a fetch failure to
the not-found classification, and compute the size from the returned bytes. -/
def GRPCServer.GetContent {σ : Type} (s : GRPCServer σ) (st : σ)
    (req : GetContentRequest) : Except Code GetContentResponse × σ :=
  if req.cid = "" then (Except.error Code.invalidArgument, st)
  else
    match s.client.get st req.cid with
    | (Except.error _, st2) => (Except.error Code.notFound, st2)
    | (Except.ok d, st2) => (Except.ok ⟨d, (d.length : Int)⟩, st2)

/-- Handler of GetProto: reject an empty identifier and map a fetch failure to
the not-found classification. -/
def GRPCServer.GetProto {σ : Type} (s : GRPCServer σ) (st : σ)
    (req : GetProtoRequest) : Except Code GetProtoResponse × σ :=
  if req.cid = "" then (Except.error Code.invalidArgument, st)
  else
    match s.client.get st req.cid with
    | (Except.error _, st2) => (Except.error Code.notFound, st2)
    | (Except.ok d, st2) => (Except.ok ⟨d⟩, st2)

/-- Handler of PinContent: reject an empty identifier and map a pin failure to
the internal classification. -/
def GRPCServer.PinContent {σ : Type} (s : GRPCServer σ) (st : σ)
    (req : PinContentRequest) : Except Code PinContentResponse × σ :=
  if req.cid = "" then (Except.error Code.invalidArgument, st)
  else
    match s.client.pin st req.cid with
    | (Except.error _, st2) => (Except.error Code.internal, st2)
    | (Except.ok _, st2) => (Except.ok ⟨true⟩, st2)

/-- Handler of UnpinContent: reject an empty identifier and map an unpin
failure to the internal classification. -/
def GRPCServer.UnpinContent {σ : Type} (s : GRPCServer σ) (st : σ)
    (req : UnpinContentRequest) : Except Code UnpinContentResponse × σ :=
  if req.cid = "" then (Except.error Code.invalidArgument, st)
  else
    match s.client.unpin st req.cid with
    | (Except.error _, st2) => (Except.error Code.internal, st2)
    | (Except.ok _, st2) => (Except.ok ⟨true⟩, st2)

/-- Handler of GetGatewayURL: reject an empty identifier, otherwise return the
gateway URL built by the client; no failure path exists past validation. -/
def GRPCServer.GetGatewayURL {σ : Type} (s : GRPCServer σ) (st : σ)
    (req : GetGatewayURLRequest) : Except Code GetGatewayURLResponse × σ :=
  if req.cid = "" then (Except.error Code.invalidArgument, st)
  else (Except.ok ⟨s.client.getGatewayURL st req.cid⟩, st)

/-!
Claims. Each claim of the specification is settled by one theorem below.
-/

/-- C1: for every byte payload, the identifier produced by the in-memory
adapter upload is the base58 encoding of the 34-byte multihash whose byte 0
is 0x12, whose byte 1 is 0x20, and whose bytes 2..33 are the SHA-256 digest
of the payload; the identifier is a pure function of the payload alone,
independent of the filename argument and of the adapter state, so identical
bytes always produce the identical identifier. -/
theorem claim_C1 (c c' : MockClient) (data : List Nat) (fname fname' : String) :
    (c.Upload data fname).1
        = Except.ok ⟨fname, encodeBase58 (0x12 :: 0x20 :: sha256 data),
            toString data.length⟩
      ∧ (0x12 :: 0x20 :: sha256 data).length = 34
      ∧ (0x12 :: 0x20 :: sha256 data).take 2 = [0x12, 0x20]
      ∧ (0x12 :: 0x20 :: sha256 data).drop 2 = sha256 data
      ∧ (sha256 data).length = 32
      ∧ (c.Upload data fname).1.map AddResponse.ipfsHash
          = (c'.Upload data fname').1.map AddResponse.ipfsHash := by
  refine ⟨rfl, ?_, rfl, rfl, sha256_length data, rfl⟩
  simp [sha256_length]

/-- C2: encodeBase58 agrees with the specification algorithm: the base-58
big-endian big-integer encoding of the input obtained by repeated division by
58 over the Bitcoin/IPFS alphabet, preceded by exactly one alphabet
zero-symbol per leading zero byte of the input; the empty input encodes to the
empty string, and an input whose first byte is zero yields a string starting
with the zero-symbol rather than dropping it. -/
theorem claim_C2 :
    (∀ input : List Nat,
        encodeBase58 input
          = String.mk (List.replicate (countLeadingZeros input) '1'
              ++ specNatToBase58 (beBytesToNat input)))
      ∧ encodeBase58 [] = ""
      ∧ ∀ rest : List Nat, ∃ cs : List Char,
          encodeBase58 (0 :: rest) = String.mk ('1' :: cs) := by
  refine ⟨fun input => ?_, ?_, fun rest => ?_⟩
  · unfold encodeBase58
    rw [encodeLoop_eq]
  · unfold encodeBase58
    rw [encodeLoop]
    simp [countLeadingZeros]
  · refine ⟨List.replicate (countLeadingZeros rest) '1' ++ encodeLoop (0 :: rest), ?_⟩
    unfold encodeBase58
    have hc : countLeadingZeros (0 :: rest) = countLeadingZeros rest + 1 := by
      simp [countLeadingZeros]
    rw [hc, List.replicate_succ, List.cons_append]

/-- C3: round trip of the in-memory adapter: from any starting state, getting
the identifier returned by an upload returns exactly the uploaded bytes. -/
theorem claim_C3 (c : MockClient) (data : List Nat) (fname : String)
    (r : AddResponse) (c' : MockClient)
    (h : c.Upload data fname = (Except.ok r, c')) :
    c'.Get r.ipfsHash = (Except.ok data, c') := by
  simp only [MockClient.Upload] at h
  rw [Prod.mk.injEq] at h
  obtain ⟨hfst, hsnd⟩ := h
  rw [Except.ok.injEq] at hfst
  subst hsnd
  subst hfst
  simp [MockClient.Get]

/-- C3 witness: a concrete round trip through the mock client. -/
theorem claim_C3_witness :
    MockClient.Get ((NewMockClient "").Upload [7] "f").2
        (encodeBase58 (0x12 :: 0x20 :: sha256 [7]))
      = (Except.ok [7], ((NewMockClient "").Upload [7] "f").2) :=
  claim_C3 (NewMockClient "") [7] "f"
    ⟨"f", encodeBase58 (0x12 :: 0x20 :: sha256 [7]), "1"⟩
    ((NewMockClient "").Upload [7] "f").2 rfl

/-- C4: uploading the same bytes twice returns the same identifier both times,
succeeds on the second call, and leaves the adapter state equal to the state
after a single upload: the second write overwrites the same key. -/
theorem claim_C4 (c : MockClient) (data : List Nat) (f1 f2 : String) :
    ∃ r1 r2 : AddResponse,
      (c.Upload data f1).1 = Except.ok r1
      ∧ ((c.Upload data f1).2.Upload data f2).1 = Except.ok r2
      ∧ r2.ipfsHash = r1.ipfsHash
      ∧ ((c.Upload data f1).2.Upload data f2).2 = (c.Upload data f1).2 := by
  refine ⟨_, _, rfl, rfl, rfl, ?_⟩
  apply MockClient.ext
  · funext k
    by_cases hk : k = encodeBase58 (0x12 :: 0x20 :: sha256 data) <;>
      simp [MockClient.Upload, hk]
  · rfl
  · rfl

/-- C7: the pin and unpin operations of the in-memory adapter never fail;
pinning then unpinning an identifier leaves it unpinned, and when the
identifier was never pinned this sequence, as well as a lone unpin, leaves the
whole adapter state unchanged. -/
theorem claim_C7 (c : MockClient) (x : String) :
    (c.Pin x).1 = Except.ok ()
      ∧ (c.Unpin x).1 = Except.ok ()
      ∧ ((c.Pin x).2.Unpin x).2.IsPinned x = false
      ∧ (c.pins x = none → ((c.Pin x).2.Unpin x).2 = c)
      ∧ (c.pins x = none → (c.Unpin x).2 = c) := by
  refine ⟨rfl, rfl, ?_, ?_, ?_⟩
  · simp [MockClient.Pin, MockClient.Unpin, MockClient.IsPinned]
  · intro hx
    apply MockClient.ext
    · rfl
    · funext k
      by_cases hk : k = x <;> simp [MockClient.Pin, MockClient.Unpin, hk, hx]
    · rfl
  · intro hx
    apply MockClient.ext
    · rfl
    · funext k
      by_cases hk : k = x <;> simp [MockClient.Unpin, hk, hx]
    · rfl

/-- C7 witness: the pin laws evaluated on a fresh mock client and a concrete
identifier. -/
theorem claim_C7_witness :
    (((NewMockClient "").Pin "QmX").2.Unpin "QmX").2 = NewMockClient ""
      ∧ ((NewMockClient "").Unpin "QmX").2 = NewMockClient "" :=
  ⟨(claim_C7 (NewMockClient "") "QmX").2.2.2.1 rfl,
   (claim_C7 (NewMockClient "") "QmX").2.2.2.2 rfl⟩

/-- C10: frame property of the in-memory adapter: pin and unpin leave the
storage map and the gateway base unchanged, upload leaves the pin map and the
gateway base unchanged, and get leaves the whole state unchanged. -/
theorem claim_C10 (c : MockClient) (x f : String) (data : List Nat) :
    (c.Pin x).2.storage = c.storage
      ∧ (c.Pin x).2.gatewayURL = c.gatewayURL
      ∧ (c.Unpin x).2.storage = c.storage
      ∧ (c.Unpin x).2.gatewayURL = c.gatewayURL
      ∧ (c.Upload data f).2.pins = c.pins
      ∧ (c.Upload data f).2.gatewayURL = c.gatewayURL
      ∧ (c.Get x).2 = c := by
  refine ⟨rfl, rfl, rfl, rfl, rfl, rfl, ?_⟩
  rcases hsx : c.storage x with _ | d <;> simp [MockClient.Get, hsx]

/-- C5: every handler returns the invalid-argument classification when its
required field is empty, leaves the adapter state unchanged, and the result
does not depend on the injected client in any way. -/
theorem claim_C5 {σ : Type} (s : GRPCServer σ) (st : σ) (fname ptype : String) :
    s.UploadContent st ⟨[], fname⟩ = (Except.error Code.invalidArgument, st)
      ∧ s.UploadProto st ⟨[], ptype⟩ = (Except.error Code.invalidArgument, st)
      ∧ s.GetContent st ⟨""⟩ = (Except.error Code.invalidArgument, st)
      ∧ s.GetProto st ⟨""⟩ = (Except.error Code.invalidArgument, st)
      ∧ s.PinContent st ⟨""⟩ = (Except.error Code.invalidArgument, st)
      ∧ s.UnpinContent st ⟨""⟩ = (Except.error Code.invalidArgument, st)
      ∧ s.GetGatewayURL st ⟨""⟩ = (Except.error Code.invalidArgument, st) :=
  ⟨rfl, rfl, rfl, rfl, rfl, rfl, rfl⟩

/-- C6: for every non-empty request, a successful adapter call passes its
fields through to a successful response; a failed upload, pin, or unpin maps
to the internal classification; a failed get maps to the not-found
classification; the gateway handler returns the URL the client builds. -/
theorem claim_C6 {σ : Type} (s : GRPCServer σ) (st st' : σ) :
    (∀ (d : List Nat) (f : String) (e : String), d ≠ [] →
        s.client.upload st d (if f = "" then "content" else f) = (Except.error e, st') →
        s.UploadContent st ⟨d, f⟩ = (Except.error Code.internal, st'))
    ∧ (∀ (d : List Nat) (f : String) (r : AddResponse), d ≠ [] →
        s.client.upload st d (if f = "" then "content" else f) = (Except.ok r, st') →
        s.UploadContent st ⟨d, f⟩ = (Except.ok ⟨r.ipfsHash, parseInt64 r.size⟩, st'))
    ∧ (∀ (d : List Nat) (t : String) (e : String), d ≠ [] →
        s.client.upload st d (if t = "" then "data.pb" else t ++ ".pb")
            = (Except.error e, st') →
        s.UploadProto st ⟨d, t⟩ = (Except.error Code.internal, st'))
    ∧ (∀ (d : List Nat) (t : String) (r : AddResponse), d ≠ [] →
        s.client.upload st d (if t = "" then "data.pb" else t ++ ".pb")
            = (Except.ok r, st') →
        s.UploadProto st ⟨d, t⟩ = (Except.ok ⟨r.ipfsHash, parseInt64 r.size⟩, st'))
    ∧ (∀ (cid e : String), cid ≠ "" →
        s.client.get st cid = (Except.error e, st') →
        s.GetContent st ⟨cid⟩ = (Except.error Code.notFound, st'))
    ∧ (∀ (cid : String) (d : List Nat), cid ≠ "" →
        s.client.get st cid = (Except.ok d, st') →
        s.GetContent st ⟨cid⟩ = (Except.ok ⟨d, (d.length : Int)⟩, st'))
    ∧ (∀ (cid e : String), cid ≠ "" →
        s.client.get st cid = (Except.error e, st') →
        s.GetProto st ⟨cid⟩ = (Except.error Code.notFound, st'))
    ∧ (∀ (cid : String) (d : List Nat), cid ≠ "" →
        s.client.get st cid = (Except.ok d, st') →
        s.GetProto st ⟨cid⟩ = (Except.ok ⟨d⟩, st'))
    ∧ (∀ (cid e : String), cid ≠ "" →
        s.client.pin st cid = (Except.error e, st') →
        s.PinContent st ⟨cid⟩ = (Except.error Code.internal, st'))
    ∧ (∀ (cid : String), cid ≠ "" →
        s.client.pin st cid = (Except.ok (), st') →
        s.PinContent st ⟨cid⟩ = (Except.ok ⟨true⟩, st'))
    ∧ (∀ (cid e : String), cid ≠ "" →
        s.client.unpin st cid = (Except.error e, st') →
        s.UnpinContent st ⟨cid⟩ = (Except.error Code.internal, st'))
    ∧ (∀ (cid : String), cid ≠ "" →
        s.client.unpin st cid = (Except.ok (), st') →
        s.UnpinContent st ⟨cid⟩ = (Except.ok ⟨true⟩, st'))
    ∧ (∀ (cid : String), cid ≠ "" →
        s.GetGatewayURL st ⟨cid⟩ = (Except.ok ⟨s.client.getGatewayURL st cid⟩, st)) := by
  refine ⟨?_, ?_, ?_, ?_, ?_, ?_, ?_, ?_, ?_, ?_, ?_, ?_, ?_⟩
  · intro d f e hd hcall
    simp [GRPCServer.UploadContent, hd, hcall]
  · intro d f r hd hcall
    simp [GRPCServer.UploadContent, hd, hcall]
  · intro d t e hd hcall
    simp [GRPCServer.UploadProto, hd, hcall]
  · intro d t r hd hcall
    simp [GRPCServer.UploadProto, hd, hcall]
  · intro cid e hcid hcall
    simp [GRPCServer.GetContent, hcid, hcall]
  · intro cid d hcid hcall
    simp [GRPCServer.GetContent, hcid, hcall]
  · intro cid e hcid hcall
    simp [GRPCServer.GetProto, hcid, hcall]
  · intro cid d hcid hcall
    simp [GRPCServer.GetProto, hcid, hcall]
  · intro cid e hcid hcall
    simp [GRPCServer.PinContent, hcid, hcall]
  · intro cid hcid hcall
    simp [GRPCServer.PinContent, hcid, hcall]
  · intro cid e hcid hcall
    simp [GRPCServer.UnpinContent, hcid, hcall]
  · intro cid hcid hcall
    simp [GRPCServer.UnpinContent, hcid, hcall]
  · intro cid hcid
    simp [GRPCServer.GetGatewayURL, hcid]

/-- Storage client over the unit state whose operations always succeed and
whose upload reports a non-numeric size, used to evaluate the handler
theorems at concrete inputs. -/
def okClient : IPFSClient Unit where
  upload := fun st _ fn => (Except.ok ⟨fn, "QmOk", "abc"⟩, st)
  get := fun st _ => (Except.ok [1, 2, 3], st)
  pin := fun st _ => (Except.ok (), st)
  unpin := fun st _ => (Except.ok (), st)
  getGatewayURL := fun _ cid => "https://gw/" ++ cid

/-- Storage client over the unit state whose fallible operations all fail. -/
def errClient : IPFSClient Unit where
  upload := fun st _ _ => (Except.error "boom", st)
  get := fun st _ => (Except.error "boom", st)
  pin := fun st _ => (Except.error "boom", st)
  unpin := fun st _ => (Except.error "boom", st)
  getGatewayURL := fun _ _ => ""

/-- C6 witness: every outcome mapping of the handlers evaluated at concrete
requests against the always-failing and the always-succeeding client. -/
theorem claim_C6_witness :
    GRPCServer.UploadContent (GRPCServer.mk errClient) () ⟨[1], "x"⟩
        = (Except.error Code.internal, ())
    ∧ GRPCServer.UploadContent (GRPCServer.mk okClient) () ⟨[1], "x"⟩
        = (Except.ok ⟨"QmOk", 0⟩, ())
    ∧ GRPCServer.UploadProto (GRPCServer.mk errClient) () ⟨[1], "t"⟩
        = (Except.error Code.internal, ())
    ∧ GRPCServer.UploadProto (GRPCServer.mk okClient) () ⟨[1], "t"⟩
        = (Except.ok ⟨"QmOk", 0⟩, ())
    ∧ GRPCServer.GetContent (GRPCServer.mk errClient) () ⟨"Qm1"⟩
        = (Except.error Code.notFound, ())
    ∧ GRPCServer.GetContent (GRPCServer.mk okClient) () ⟨"Qm1"⟩
        = (Except.ok ⟨[1, 2, 3], 3⟩, ())
    ∧ GRPCServer.GetProto (GRPCServer.mk errClient) () ⟨"Qm1"⟩
        = (Except.error Code.notFound, ())
    ∧ GRPCServer.GetProto (GRPCServer.mk okClient) () ⟨"Qm1"⟩
        = (Except.ok ⟨[1, 2, 3]⟩, ())
    ∧ GRPCServer.PinContent (GRPCServer.mk errClient) () ⟨"Qm1"⟩
        = (Except.error Code.internal, ())
    ∧ GRPCServer.PinContent (GRPCServer.mk okClient) () ⟨"Qm1"⟩
        = (Except.ok ⟨true⟩, ())
    ∧ GRPCServer.UnpinContent (GRPCServer.mk errClient) () ⟨"Qm1"⟩
        = (Except.error Code.internal, ())
    ∧ GRPCServer.UnpinContent (GRPCServer.mk okClient) () ⟨"Qm1"⟩
        = (Except.ok ⟨true⟩, ())
    ∧ GRPCServer.GetGatewayURL (GRPCServer.mk okClient) () ⟨"Qm1"⟩
        = (Except.ok ⟨"https://gw/Qm1"⟩, ()) :=
  ⟨(claim_C6 (GRPCServer.mk errClient) () ()).1 [1] "x" "boom" (by decide) rfl,
   (claim_C6 (GRPCServer.mk okClient) () ()).2.1 [1] "x" ⟨"x", "QmOk", "abc"⟩
     (by decide) rfl,
   (claim_C6 (GRPCServer.mk errClient) () ()).2.2.1 [1] "t" "boom" (by decide) rfl,
   (claim_C6 (GRPCServer.mk okClient) () ()).2.2.2.1 [1] "t" ⟨"t.pb", "QmOk", "abc"⟩
     (by decide) rfl,
   (claim_C6 (GRPCServer.mk errClient) () ()).2.2.2.2.1 "Qm1" "boom" (by decide) rfl,
   (claim_C6 (GRPCServer.mk okClient) () ()).2.2.2.2.2.1 "Qm1" [1, 2, 3]
     (by decide) rfl,
   (claim_C6 (GRPCServer.mk errClient) () ()).2.2.2.2.2.2.1 "Qm1" "boom"
     (by decide) rfl,
   (claim_C6 (GRPCServer.mk okClient) () ()).2.2.2.2.2.2.2.1 "Qm1" [1, 2, 3]
     (by decide) rfl,
   (claim_C6 (GRPCServer.mk errClient) () ()).2.2.2.2.2.2.2.2.1 "Qm1" "boom"
     (by decide) rfl,
   (claim_C6 (GRPCServer.mk okClient) () ()).2.2.2.2.2.2.2.2.2.1 "Qm1"
     (by decide) rfl,
   (claim_C6 (GRPCServer.mk errClient) () ()).2.2.2.2.2.2.2.2.2.2.1 "Qm1" "boom"
     (by decide) rfl,
   (claim_C6 (GRPCServer.mk okClient) () ()).2.2.2.2.2.2.2.2.2.2.2.1 "Qm1"
     (by decide) rfl,
   (claim_C6 (GRPCServer.mk okClient) () ()).2.2.2.2.2.2.2.2.2.2.2.2 "Qm1"
     (by decide)⟩

/-- C8: when the adapter get succeeds for a non-empty identifier, the
size field of the GetContent response equals the byte length of the data
buffer returned in that same response. -/
theorem claim_C8 {σ : Type} (s : GRPCServer σ) (st st' : σ) (cid : String)
    (d : List Nat) (hcid : cid ≠ "")
    (hget : s.client.get st cid = (Except.ok d, st')) :
    ∃ resp : GetContentResponse,
      s.GetContent st ⟨cid⟩ = (Except.ok resp, st')
        ∧ resp.data = d
        ∧ resp.sizeBytes = (resp.data.length : Int) := by
  refine ⟨⟨d, (d.length : Int)⟩, ?_, rfl, rfl⟩
  simp [GRPCServer.GetContent, hcid, hget]

/-- C8 witness: the size of a concrete retrieved buffer. -/
theorem claim_C8_witness :
    ∃ resp : GetContentResponse,
      GRPCServer.GetContent (GRPCServer.mk okClient) () ⟨"QmZ"⟩
          = (Except.ok resp, ())
        ∧ resp.data = [1, 2, 3]
        ∧ resp.sizeBytes = (resp.data.length : Int) :=
  claim_C8 (GRPCServer.mk okClient) () () "QmZ" [1, 2, 3] (by decide) rfl

/-- C9: size-parse leniency: when the adapter upload succeeds but reports a
size string that is not a decimal integer, the upload handlers still return
success, with the size field equal to zero. -/
theorem claim_C9 {σ : Type} (s : GRPCServer σ) (st st' : σ) :
    (∀ (d : List Nat) (f : String) (r : AddResponse), d ≠ [] →
        s.client.upload st d (if f = "" then "content" else f) = (Except.ok r, st') →
        isDecimalIntString r.size = false →
        s.UploadContent st ⟨d, f⟩ = (Except.ok ⟨r.ipfsHash, 0⟩, st'))
    ∧ (∀ (d : List Nat) (t : String) (r : AddResponse), d ≠ [] →
        s.client.upload st d (if t = "" then "data.pb" else t ++ ".pb")
            = (Except.ok r, st') →
        isDecimalIntString r.size = false →
        s.UploadProto st ⟨d, t⟩ = (Except.ok ⟨r.ipfsHash, 0⟩, st')) := by
  constructor
  · intro d f r hd hcall hsize
    simp [GRPCServer.UploadContent, hd, hcall, parseInt64_eq_zero r.size hsize]
  · intro d t r hd hcall hsize
    simp [GRPCServer.UploadProto, hd, hcall, parseInt64_eq_zero r.size hsize]

/-- C9 witness: an upload whose reported size is not numeric still succeeds
with size zero. -/
theorem claim_C9_witness :
    GRPCServer.UploadContent (GRPCServer.mk okClient) () ⟨[1], "nm"⟩
      = (Except.ok ⟨"QmOk", 0⟩, ()) :=
  (claim_C9 (GRPCServer.mk okClient) () ()).1 [1] "nm" ⟨"nm", "QmOk", "abc"⟩
    (by decide) rfl (by decide)
